import Mathlib

/-!
Verification of the statement-normalization engine of `dashboard.py`.

The engine is embedded shallowly:
* the six `re.search` patterns of `extract_merchant` are compiled to a small
  list-based backtracking matcher (`Matcher`) that reproduces Python's
  leftmost-start scan and greedy/lazy quantifier order for these patterns;
* the amount/type reconciler works over `Rat` (pandas floats are modelled as
  exact rationals; `pd.to_numeric(errors="coerce")` is modelled for plain
  decimal literals, which is the shape the engine ever feeds it);
* a cell is `Option String` (`none` models a pandas missing value, whose
  `astype(str)` image is the string "nan");
* the dateutil parser is an explicit functional parameter, since the source
  only wraps it in a `try/except`.
-/

namespace Dashboard

/-- Python `\s` (ASCII range): space, tab, newline, carriage return,
vertical tab, form feed. -/
def wsChar (c : Char) : Bool :=
  c = Char.ofNat 32 || c = Char.ofNat 9 || c = Char.ofNat 10 ||
  c = Char.ofNat 13 || c = Char.ofNat 11 || c = Char.ofNat 12

/-- Case-insensitive character comparison (`re.IGNORECASE`). -/
def lowerEq (a b : Char) : Bool := a.toLower = b.toLower

/-- Case-insensitive prefix test on character lists. -/
def ciLeads : List Char → List Char → Bool
  | [], _ => true
  | _ :: _, [] => false
  | c :: cs, d :: ds => lowerEq c d && ciLeads cs ds

/-- A matcher consumes a prefix of the input and returns the possible
remaining suffixes, in Python's backtracking priority order. -/
abbrev Matcher := List Char → List (List Char)

/-- Case-insensitive literal (`re` literal text under `IGNORECASE`). -/
def mLit (cs : List Char) : Matcher := fun s =>
  if ciLeads cs s then [s.drop cs.length] else []

/-- Single character class `[...]`. -/
def mCls (p : Char → Bool) : Matcher := fun s =>
  match s with
  | [] => []
  | c :: t => if p c then [t] else []

/-- Greedy star over a character class (`[...]*`): longest use first. -/
def mStarG (p : Char → Bool) : Matcher := fun s =>
  let r := (s.takeWhile p).length
  (List.range (r + 1)).map (fun i => s.drop (r - i))

/-- Greedy plus over a character class (`[...]+`): longest use first. -/
def mPlusG (p : Char → Bool) : Matcher := fun s =>
  let r := (s.takeWhile p).length
  (List.range r).map (fun i => s.drop (r - i))

/-- Lazy plus over a character class (`[...]+?`): shortest use first. -/
def mPlusL (p : Char → Bool) : Matcher := fun s =>
  let r := (s.takeWhile p).length
  (List.range r).map (fun i => s.drop (i + 1))

/-- Greedy bounded repetition `[...]{n,}`: longest use first. -/
def mPlusNG (n : Nat) (p : Char → Bool) : Matcher := fun s =>
  let r := (s.takeWhile p).length
  if r < n then [] else (List.range (r - n + 1)).map (fun i => s.drop (r - i))

/-- Greedy option `(?:...)?`: matching branch first, then the skip. -/
def mOpt (a : Matcher) : Matcher := fun s => a s ++ [s]

/-- End anchor `$` (modelled as true end of input). -/
def mEos : Matcher := fun s => if s.isEmpty then [[]] else []

/-- Empty pattern. -/
def mEps : Matcher := fun s => [s]

/-- Sequencing: all continuations of `a`, each continued by `b`, in order. -/
def mSeq (a b : Matcher) : Matcher := fun s => (a s).flatMap b

/-- Ordered alternation `x|y`. -/
def mAlt (a b : Matcher) : Matcher := fun s => a s ++ b s

/-- Try `pre`, then the capture group `grp`, then `post` at a fixed start,
in backtracking priority order; return the group's text on first success. -/
def searchAt (pre grp post : Matcher) (s : List Char) : Option (List Char) :=
  ((pre s).flatMap (fun s1 =>
    (grp s1).filterMap (fun s2 =>
      if (post s2).isEmpty then none
      else some (s1.take (s1.length - s2.length))))).head?

/-- `re.search`: scan start positions left to right, returning the group of
the first start where the whole pattern matches. -/
def reSearch (pre grp post : Matcher) : List Char → Option (List Char)
  | [] => searchAt pre grp post []
  | c :: t =>
    match searchAt pre grp post (c :: t) with
    | some g => some g
    | none => reSearch pre grp post t

/-- Python `str.strip()`. -/
def pyStrip (l : List Char) : List Char :=
  ((l.dropWhile wsChar).reverse.dropWhile wsChar).reverse

/-- Python `str.upper()` (ASCII). -/
def pyUpper (l : List Char) : List Char := l.map Char.toUpper

/-- The group terminator `(?:-|@|\s|$)` shared by patterns 1 and 2. -/
def termM : Matcher :=
  mAlt (mCls (fun c => c = '-'))
    (mAlt (mCls (fun c => c = '@')) (mAlt (mCls wsChar) mEos))

/-- Characters allowed inside the group of patterns 1 and 2: `[^-@]`. -/
def nonDashAt (c : Char) : Bool := !(c = '-' || c = '@')

/-- `[^-]`. -/
def nonDash (c : Char) : Bool := !(c = '-')

/-- The `@upi` handle token class `[A-Za-z0-9._-]`. -/
def handleChar (c : Char) : Bool :=
  c.isAlpha || c.isDigit || c = '.' || c = '_' || c = '-'

/-- The `to:`/`from:` capture class `[A-Za-z0-9 &._@-]`. -/
def toFromChar (c : Char) : Bool :=
  c.isAlpha || c.isDigit || c = Char.ofNat 32 || c = '&' || c = '.' ||
  c = '_' || c = '@' || c = '-'

/-- `[:\s]` of pattern 4. -/
def colonWs (c : Char) : Bool := c = ':' || wsChar c

/-- Pattern 1, `UPI`, a separator `-` or slash, then `([^-@]+?)(?:-|@|\s|$)`:
raw group of the first match. -/
def rule1raw (s : List Char) : Option (List Char) :=
  reSearch (mSeq (mLit "UPI".toList) (mCls (fun c => c = '-' || c = '/')))
    (mPlusL nonDashAt) termM s

/-- Pattern 2, `REV-UPI-[^-]+-([^-@]+?)(?:-|@|\s|$)`. -/
def rule2raw (s : List Char) : Option (List Char) :=
  reSearch
    (mSeq (mLit "REV-UPI-".toList) (mSeq (mPlusG nonDash) (mLit "-".toList)))
    (mPlusL nonDashAt) termM s

/-- Pattern 3, `FT-[^-]+-[^-]+-\s*([^-]+?)(?:\s*-\s*[^-]*)?$`. -/
def rule3raw (s : List Char) : Option (List Char) :=
  reSearch
    (mSeq (mLit "FT-".toList)
      (mSeq (mPlusG nonDash)
        (mSeq (mLit "-".toList)
          (mSeq (mPlusG nonDash) (mSeq (mLit "-".toList) (mStarG wsChar))))))
    (mPlusL nonDash)
    (mSeq (mOpt (mSeq (mStarG wsChar)
      (mSeq (mLit "-".toList) (mSeq (mStarG wsChar) (mStarG nonDash)))))
      mEos) s

/-- Pattern 4, `@upi[:\s]*([A-Za-z0-9._-]+)`. -/
def rule4raw (s : List Char) : Option (List Char) :=
  reSearch (mSeq (mLit "@upi".toList) (mStarG colonWs)) (mPlusG handleChar)
    mEps s

/-- Pattern 5, `to:?\s*([A-Za-z0-9 &._@-]{3,})`. -/
def rule5raw (s : List Char) : Option (List Char) :=
  reSearch (mSeq (mLit "to".toList) (mSeq (mOpt (mLit ":".toList)) (mStarG wsChar)))
    (mPlusNG 3 toFromChar) mEps s

/-- Pattern 6, `from:?\s*([A-Za-z0-9 &._@-]{3,})`. -/
def rule6raw (s : List Char) : Option (List Char) :=
  reSearch (mSeq (mLit "from".toList) (mSeq (mOpt (mLit ":".toList)) (mStarG wsChar)))
    (mPlusNG 3 toFromChar) mEps s

/-- Rule 1 as it contributes to `extract_merchant`: stripped group, returned
only when it passes the `upper() != "UPI" and len > 2` filter. -/
def rule1acc (s : List Char) : Option (List Char) :=
  (rule1raw s).bind (fun g =>
    let m := pyStrip g
    if pyUpper m ≠ "UPI".toList ∧ 2 < m.length then some m else none)

/-- Rule 2 with its `upper() != "UPI" and len > 2` filter. -/
def rule2acc (s : List Char) : Option (List Char) :=
  (rule2raw s).bind (fun g =>
    let m := pyStrip g
    if pyUpper m ≠ "UPI".toList ∧ 2 < m.length then some m else none)

/-- Rule 3 with its `len > 2` filter. -/
def rule3acc (s : List Char) : Option (List Char) :=
  (rule3raw s).bind (fun g =>
    let m := pyStrip g
    if 2 < m.length then some m else none)

/-- Rule 4: the stripped capture is returned with no further filter. -/
def rule4acc (s : List Char) : Option (List Char) :=
  (rule4raw s).map pyStrip

/-- Rule 5: the stripped capture is returned with no further filter. -/
def rule5acc (s : List Char) : Option (List Char) :=
  (rule5raw s).map pyStrip

/-- Rule 6: the stripped capture is returned with no further filter. -/
def rule6acc (s : List Char) : Option (List Char) :=
  (rule6raw s).map pyStrip

/-- The ordered cascade of rules 1-6 of `extract_merchant`: the first rule
whose candidate is accepted returns from the function. -/
def rulesCascade (s : List Char) : Option (List Char) :=
  (rule1acc s) <|> (rule2acc s) <|> (rule3acc s) <|> (rule4acc s) <|>
    (rule5acc s) <|> (rule6acc s)

/-- `re.split(r"[,|:-]", s)`. -/
def splitDelim : List Char → List (List Char)
  | [] => [[]]
  | c :: t =>
    if c = ',' || c = '|' || c = ':' || c = '-' then [] :: splitDelim t
    else
      match splitDelim t with
      | [] => [[c]]
      | p :: ps => (c :: p) :: ps

/-- `re.match(r"^\d+$", part)` succeeds: nonempty and all digits. -/
def pureNumber (l : List Char) : Bool := !l.isEmpty && l.all Char.isDigit

/-- The fallback loop of `extract_merchant`: first stripped split part that is
not "UPI", nonempty, not a pure number and longer than 2 characters. -/
def firstGoodPart (parts : List (List Char)) : Option (List Char) :=
  parts.findSome? (fun p0 =>
    let p := pyStrip p0
    if pyUpper p ≠ "UPI".toList ∧ p ≠ [] ∧ ¬ pureNumber p ∧ 2 < p.length
    then some p else none)

/-- Fallback of `extract_merchant`: split on `[,|:-]` and take the first good
part truncated to 60 characters, else the whole text truncated to 60. -/
def fallbackExtract (s : List Char) : List Char :=
  match firstGoodPart (splitDelim s) with
  | some p => p.take 60
  | none => s.take 60

/-- `extract_merchant` of `dashboard.py`.  `none` models a cell for which
`pd.isna` holds, which short-circuits to the empty string. -/
def extract_merchant (x : Option String) : String :=
  match x with
  | none => ""
  | some t => String.mk ((rulesCascade t.toList).getD (fallbackExtract t.toList))

/-! ## Numbers, cells and the amount/type reconciler -/

/-- Left-to-right scan of `removeAll` below; the fuel argument (initially
the input length, consumed at least one character per step) only makes the
recursion structural. -/
def removeAllAux (pat : List Char) : Nat → List Char → List Char
  | 0, s => s
  | _ + 1, [] => []
  | fuel + 1, c :: t =>
    if pat ≠ [] ∧ pat.isPrefixOf (c :: t) then
      removeAllAux pat fuel ((c :: t).drop pat.length)
    else c :: removeAllAux pat fuel t

/-- Literal substring removal, as `str.replace(old, "")` on a pandas string
column (`old` nonempty and free of regex metacharacters for the three
occurrences in the source: `,`, `INR`, `Rs.`). -/
def removeAll (pat s : List Char) : List Char := removeAllAux pat s.length s

/-- Value of a digit list read in base 10. -/
def digitsVal (l : List Char) : Nat :=
  l.foldl (fun a c => a * 10 + (c.toNat - 48)) 0

/-- Unsigned decimal literal: digits, optionally a point and digits, with at
least one digit overall. -/
def parseUnsignedRat (l : List Char) : Option Rat :=
  let ip := l.takeWhile Char.isDigit
  match l.dropWhile Char.isDigit with
  | [] => if ip.isEmpty then none else some (digitsVal ip)
  | c :: r2 =>
    if c = '.' then
      let fp := r2.takeWhile Char.isDigit
      if (r2.dropWhile Char.isDigit).isEmpty && !(ip.isEmpty && fp.isEmpty)
      then some ((digitsVal ip : Rat) + (digitsVal fp : Rat) / ((10 : Rat) ^ fp.length))
      else none
    else none

/-- Model of `pd.to_numeric(errors="coerce")` on a single string: optional
surrounding whitespace and sign around a plain decimal literal; anything
else (including the string "nan") coerces to a missing value.  Scientific
notation is not modelled; the engine never relies on it. -/
def parseRatCoerce (l : List Char) : Option Rat :=
  match pyStrip l with
  | '+' :: r => parseUnsignedRat r
  | '-' :: r => (parseUnsignedRat r).map (fun q => -q)
  | t => parseUnsignedRat t

/-- `pd.to_numeric(..., errors="coerce").fillna(0)` on one cell string. -/
def toNumeric0 (l : List Char) : Rat := (parseRatCoerce l).getD 0

/-- `astype(str)` on one cell: a missing value renders as "nan". -/
def cellToStr (o : Option String) : String := o.getD "nan"

/-- `.str.replace(',', '').str.replace('INR', '').str.replace('Rs.', '')`
applied to one cell string, in source order. -/
def cleanAmount (l : List Char) : List Char :=
  removeAll "Rs.".toList (removeAll "INR".toList (removeAll ",".toList l))

/-- The transaction type enum written to the `Type` column. -/
inductive Ty
  | debit
  | credit
deriving DecidableEq, Repr

/-- Pandas `Series.abs()` on one value. -/
def ratAbs (q : Rat) : Rat := if q < 0 then -q else q

/-- The single-amount-column path (source lines 209 and 219-222): parse the
cleaned cell text (missing or unparsable becomes 0), type Debit exactly when
the raw cell text contains a `-`, and take the absolute value. -/
def singleAmount (cell : Option String) : Rat × Ty :=
  let s := (cellToStr cell).toList
  (ratAbs (toNumeric0 (cleanAmount s)),
   if s.contains '-' then Ty.debit else Ty.credit)

/-- The debit/credit path (source lines 211-217): parse both cells with
commas stripped (missing or unparsable becomes 0); the amount is the credit
value unless it is exactly 0 (`replace(0, nan).fillna(debit)`), in absolute
value; the type is Credit exactly when the credit value is positive. -/
def dcAmount (dcell ccell : Option String) : Rat × Ty :=
  let d := toNumeric0 (removeAll ",".toList (cellToStr dcell).toList)
  let c := toNumeric0 (removeAll ",".toList (cellToStr ccell).toList)
  let a := if c ≠ 0 then c else d
  (ratAbs a, if 0 < c then Ty.credit else Ty.debit)

/-! ## The date normalizer -/

/-- A raw cell as seen by `try_parse_date`: missing (`pd.isna`), a string,
or an already-structured date-like value. -/
inductive PCell
  | null
  | str (s : String)
  | dt (d : Int)
deriving DecidableEq, Repr

/-- `try_parse_date` of `dashboard.py`.  The surrounding `try/except` makes
the function total: `dparse` models `dateutil.parser.parse` (with
`dayfirst=False, fuzzy=True`) and may fail with an exception, modelled by
`Except.error`; every failure path returns `none` (pandas `NaT`).  A parsed
calendar date is abstracted as an `Int`. -/
def try_parse_date (dparse : String → Except Unit Int) (x : PCell) : Option Int :=
  match x with
  | .null => none
  | .dt d => some d
  | .str s0 =>
    let s := String.mk (pyStrip s0.toList)
    if s = "" then none
    else
      match dparse s with
      | .ok d => some d
      | .error _ => none

/-! ## The column classifier and the per-table pipeline -/

/-- One input column: its name, whether its pandas dtype is `object`
(string-typed), and its cells. -/
structure Col where
  name : String
  isObj : Bool
  cells : List (Option String)
deriving DecidableEq, Repr

/-- An input batch: the raw columns in their original order, and the row
count (well-formedness ties every column to it). -/
structure Table where
  cols : List Col
  nrows : Nat
deriving DecidableEq, Repr

/-- Every column holds one cell per row. -/
def Table.wf (t : Table) : Prop := ∀ c ∈ t.cols, c.cells.length = t.nrows

/-- Case-insensitive substring test: `re.search` of a pattern that is an
alternation of plain literals succeeds exactly when one is a substring. -/
def containsCI : List Char → List Char → Bool
  | [], pat => pat.isEmpty
  | c :: t, pat => ciLeads pat (c :: t) || containsCI t pat

/-- A column name matches a role when any of the role's literal alternatives
occurs in it, case-insensitively. -/
def colMatches (pats : List String) (name : String) : Bool :=
  pats.any (fun p => containsCI name.toList p.toList)

/-- Alternatives of `r"date|txn date|value date"`. -/
def datePats : List String := ["date", "txn date", "value date"]

/-- Alternatives of `r"narration|description|remarks|particulars|details"`. -/
def narrationPats : List String :=
  ["narration", "description", "remarks", "particulars", "details"]

/-- Alternatives of `r"amount|amt"`. -/
def amountPats : List String := ["amount", "amt"]

/-- Alternatives of `r"debit|withdraw"`. -/
def debitPats : List String := ["debit", "withdraw"]

/-- Alternatives of `r"credit|deposit"`. -/
def creditPats : List String := ["credit", "deposit"]

/-- First column whose name matches the date patterns. -/
def dateCol (t : Table) : Option Col :=
  t.cols.find? (fun c => colMatches datePats c.name)

/-- First column whose name matches the narration patterns. -/
def narrationCol (t : Table) : Option Col :=
  t.cols.find? (fun c => colMatches narrationPats c.name)

/-- First column whose name matches the amount patterns. -/
def amountCol (t : Table) : Option Col :=
  t.cols.find? (fun c => colMatches amountPats c.name)

/-- First column whose name matches the debit patterns. -/
def debitCol (t : Table) : Option Col :=
  t.cols.find? (fun c => colMatches debitPats c.name)

/-- First column whose name matches the credit patterns. -/
def creditCol (t : Table) : Option Col :=
  t.cols.find? (fun c => colMatches creditPats c.name)

/-- `" ".join(map(str, row.values))` for row `i`. -/
def rowJoin (t : Table) (i : Nat) : String :=
  String.intercalate " " (t.cols.map (fun c => cellToStr (c.cells.getD i none)))

/-- A cell as `try_parse_date` receives it. -/
def cellPCell (o : Option String) : PCell :=
  match o with
  | none => PCell.null
  | some s => PCell.str s

/-- The `Date` column (source lines 189-194): parse the date column if one
resolved, else parse the concatenation of each row's cell texts. -/
def dateCells (dparse : String → Except Unit Int) (t : Table) : List (Option Int) :=
  match dateCol t with
  | some c => c.cells.map (fun o => try_parse_date dparse (cellPCell o))
  | none => (List.range t.nrows).map
      (fun i => try_parse_date dparse (PCell.str (rowJoin t i)))

/-- The columns of `df` at the time of the text-column scan of source line
201.  The date step of lines 189-194 has already run: the assignment
`df["Date"] = ...` overwrites an input column literally named "Date"
(case-sensitively, as pandas column assignment does) in place, and appends
a new final column named "Date" otherwise.  Either way that column now
holds parsed datetimes, modelled with non-object dtype; its cell values are
never read by the merchant step (the scan can only skip a non-object
column), so the overwritten cells are kept and the appended ones are
modelled as missing. -/
def textScanCols (t : Table) : List Col :=
  (t.cols.map (fun c => if c.name = "Date" then { c with isObj := false } else c)) ++
    (if t.cols.any (fun c => c.name = "Date") then []
     else [⟨"Date", false, List.replicate t.nrows none⟩])

/-- The `Merchant` column (source lines 197-205): extract from the narration
column if one resolved, else from the first `object`-dtype column of `df`
as it stands after the date step (`textScanCols`), else the empty string. -/
def merchantCells (t : Table) : List String :=
  match narrationCol t with
  | some c => c.cells.map (fun o => extract_merchant o)
  | none =>
    match (textScanCols t).find? (fun c => c.isObj) with
    | some c => c.cells.map (fun o => extract_merchant o)
    | none => List.replicate t.nrows ""

/-- The `Amount`/`Type` columns (source lines 208-226): debit/credit path
when an amount column and both debit and credit columns resolved, the single
amount path when only an amount column resolved, else amount 0 type Debit. -/
def amountTypeCells (t : Table) : List (Rat × Ty) :=
  match amountCol t with
  | some ac =>
    match debitCol t, creditCol t with
    | some dc, some cc => List.zipWith dcAmount dc.cells cc.cells
    | _, _ => ac.cells.map singleAmount
  | none => List.replicate t.nrows ((0 : Rat), Ty.debit)

/-- The `Category` column (source lines 229-230): kept as uploaded when the
input already has a column named `Category`, else initialized to "". -/
def categoryCells (t : Table) : List (Option String) :=
  match t.cols.find? (fun c => c.name = "Category") with
  | some c => c.cells
  | none => List.replicate t.nrows (some "")

/-- One normalized transaction: the display columns `Date`, `Merchant`,
`Amount`, `Type`, `Category` of source lines 254-260. -/
structure Tx where
  date : Option Int
  merchant : String
  amount : Rat
  ty : Ty
  category : Option String
deriving DecidableEq, Repr

/-- The normalization engine: one `Tx` per input row, assembled from the
four derived column sets (no sidebar filter active at ingestion time). -/
def normalize (dparse : String → Except Unit Int) (t : Table) : List Tx :=
  List.zipWith
    (fun (dm : Option Int × String) (ac : (Rat × Ty) × Option String) =>
      { date := dm.1, merchant := dm.2, amount := ac.1.1, ty := ac.1.2,
        category := ac.2 })
    ((dateCells dparse t).zip (merchantCells t))
    ((amountTypeCells t).zip (categoryCells t))

/-- Modelled from the spec (section 4.4, for comparison with the code): on
the debit/credit path the amount is "credit value if credit > 0, else debit
value, taking absolute value", the type Credit exactly when credit > 0. -/
def specDcAmount (dcell ccell : Option String) : Rat × Ty :=
  let d := toNumeric0 (removeAll ",".toList (cellToStr dcell).toList)
  let c := toNumeric0 (removeAll ",".toList (cellToStr ccell).toList)
  (if 0 < c then ratAbs c else ratAbs d,
   if 0 < c then Ty.credit else Ty.debit)

/-! ## Shared helper lemmas -/

/-- A distinguished always-failing external date parser, used to instantiate
theorems at concrete inputs. -/
def dummyParse : String → Except Unit Int := fun _ => Except.error ()

theorem exists_of_mem_zipWith {α β γ : Type} {f : α → β → γ} :
    ∀ (l1 : List α) (l2 : List β) (c : γ), c ∈ List.zipWith f l1 l2 →
      ∃ a b, a ∈ l1 ∧ b ∈ l2 ∧ c = f a b := by
  intro l1
  induction l1 with
  | nil => intro l2 c h; simp at h
  | cons a t ih =>
    intro l2 c h
    cases l2 with
    | nil => simp at h
    | cons b t2 =>
      simp only [List.zipWith, List.mem_cons] at h
      cases h with
      | inl h => exact ⟨a, b, by simp, by simp, h⟩
      | inr h =>
        obtain ⟨a2, b2, h1, h2, h3⟩ := ih t2 c h
        exact ⟨a2, b2, by simp [h1], by simp [h2], h3⟩

theorem ratAbs_nonneg (q : Rat) : 0 ≤ ratAbs q := by
  unfold ratAbs
  split <;> linarith

theorem ratAbs_of_nonneg (q : Rat) (h : 0 ≤ q) : ratAbs q = q := by
  unfold ratAbs
  split <;> linarith

theorem singleAmount_fst_nonneg (cell : Option String) :
    0 ≤ (singleAmount cell).1 := ratAbs_nonneg _

theorem dcAmount_fst_nonneg (dcell ccell : Option String) :
    0 ≤ (dcAmount dcell ccell).1 := ratAbs_nonneg _

/-- Every pair produced by the amount/type reconciler has a nonnegative
amount, whichever of the three column-availability paths produced it. -/
theorem amountTypeCells_nonneg (t : Table) (p : Rat × Ty)
    (hp : p ∈ amountTypeCells t) : 0 ≤ p.1 := by
  unfold amountTypeCells at hp
  split at hp
  · split at hp
    · obtain ⟨a, b, _, _, rfl⟩ := exists_of_mem_zipWith _ _ _ hp
      exact dcAmount_fst_nonneg a b
    · obtain ⟨cell, _, rfl⟩ := List.mem_map.mp hp
      exact singleAmount_fst_nonneg cell
  · rw [List.eq_of_mem_replicate hp]

/-- Candidates surviving the shared filter of rules 1 and 2 are not the
literal "UPI" and are longer than 2 characters. -/
theorem filter12_some (ro : Option (List Char)) (m : List Char)
    (h : (ro.bind (fun g =>
      let m0 := pyStrip g
      if pyUpper m0 ≠ "UPI".toList ∧ 2 < m0.length then some m0 else none))
        = some m) :
    pyUpper m ≠ "UPI".toList ∧ 2 < m.length := by
  obtain ⟨g, _, hf⟩ := Option.bind_eq_some.mp h
  simp only [] at hf
  split at hf
  · cases hf
    assumption
  · cases hf

theorem length_dateCells (dparse : String → Except Unit Int) (t : Table)
    (hwf : t.wf) : (dateCells dparse t).length = t.nrows := by
  unfold dateCells
  cases h : dateCol t with
  | none => simp
  | some c =>
    have : c ∈ t.cols := List.mem_of_find?_eq_some (by simpa [dateCol] using h)
    simp [hwf c this]

theorem textScanCols_wf (t : Table) (hwf : t.wf) :
    ∀ c ∈ textScanCols t, c.cells.length = t.nrows := by
  intro c hc
  unfold textScanCols at hc
  rcases List.mem_append.mp hc with hl | hr
  · obtain ⟨c0, hc0, hf⟩ := List.mem_map.mp hl
    by_cases hn : c0.name = "Date"
    · rw [if_pos hn] at hf
      rw [← hf]
      exact hwf c0 hc0
    · rw [if_neg hn] at hf
      rw [← hf]
      exact hwf c0 hc0
  · split at hr
    · simp at hr
    · simp only [List.mem_singleton] at hr
      rw [hr]
      simp

theorem length_merchantCells (t : Table) (hwf : t.wf) :
    (merchantCells t).length = t.nrows := by
  unfold merchantCells
  cases h : narrationCol t with
  | some c =>
    have : c ∈ t.cols := List.mem_of_find?_eq_some (by simpa [narrationCol] using h)
    simp [hwf c this]
  | none =>
    cases h2 : (textScanCols t).find? (fun c => c.isObj) with
    | none => simp
    | some c =>
      have : c ∈ textScanCols t := List.mem_of_find?_eq_some h2
      simp [textScanCols_wf t hwf c this]

theorem length_amountTypeCells (t : Table) (hwf : t.wf) :
    (amountTypeCells t).length = t.nrows := by
  unfold amountTypeCells
  cases h : amountCol t with
  | none => simp
  | some ac =>
    cases hd : debitCol t with
    | none =>
      have : ac ∈ t.cols := List.mem_of_find?_eq_some (by simpa [amountCol] using h)
      simp [hd, hwf ac this]
    | some dc =>
      cases hc : creditCol t with
      | none =>
        have : ac ∈ t.cols := List.mem_of_find?_eq_some (by simpa [amountCol] using h)
        simp [hc, hwf ac this]
      | some cc =>
        have hdm : dc ∈ t.cols := List.mem_of_find?_eq_some (by simpa [debitCol] using hd)
        have hcm : cc ∈ t.cols := List.mem_of_find?_eq_some (by simpa [creditCol] using hc)
        simp [List.length_zipWith, hwf dc hdm, hwf cc hcm]

theorem length_categoryCells (t : Table) (hwf : t.wf) :
    (categoryCells t).length = t.nrows := by
  unfold categoryCells
  cases h : t.cols.find? (fun c => c.name = "Category") with
  | none => simp
  | some c =>
    have : c ∈ t.cols := List.mem_of_find?_eq_some h
    simp [hwf c this]

theorem length_normalize (dparse : String → Except Unit Int) (t : Table)
    (hwf : t.wf) : (normalize dparse t).length = t.nrows := by
  unfold normalize
  simp [List.length_zipWith, List.length_zip, length_dateCells dparse t hwf,
    length_merchantCells t hwf, length_amountTypeCells t hwf,
    length_categoryCells t hwf]

/-! ## Claims -/

/-- C1: the code evaluated at the narration of the claim.  On
"REV-UPI-REF456-FLIPKART@icici-UPI" the extractor returns "REF456", not
"FLIPKART": rule 1 already matches at the "UPI-" inside the "REV-UPI-"
prefix and captures the reference token, which passes the acceptance filter,
so the dedicated reversal rule 2 (which would capture "FLIPKART", as shown
by the second conjunct) is never consulted. -/
theorem C1_reversal_eval :
    extract_merchant (some "REV-UPI-REF456-FLIPKART@icici-UPI") = "REF456"
    ∧ rule2acc "REV-UPI-REF456-FLIPKART@icici-UPI".toList = some "FLIPKART".toList
    ∧ rule1acc "REV-UPI-REF456-FLIPKART@icici-UPI".toList = some "REF456".toList := by
  refine ⟨?_, ?_, ?_⟩ <;> rfl

/-- C2 counterexample: the claim fails in both directions.  The non-null
empty narration yields the empty string, and a "to:" narration with a
70-character name yields a 70-character merchant, exceeding the 60-character
bound (rules 1-6 do not truncate). -/
theorem C2_counterexample :
    extract_merchant (some "") = ""
    ∧ 60 < (extract_merchant
        (some (String.mk ('t' :: 'o' :: ':' :: List.replicate 70 'A')))).length := by
  constructor
  · rfl
  · decide

/-- C2 amended: a null narration yields the empty string, and whenever no
rule of the cascade (rules 1-6) produces an accepted candidate, the result
is the fallback value, which has at most 60 characters and is empty only
when the narration itself is empty.  (The original bounds do not hold on
the rule paths: rules 1-6 do not truncate to 60 characters, and rules 5-6
can return the empty string for non-null input.) -/
theorem C2_amended (s : List Char) (h : rulesCascade s = none) :
    extract_merchant none = ""
    ∧ extract_merchant (some (String.mk s)) = String.mk (fallbackExtract s)
    ∧ (fallbackExtract s).length ≤ 60
    ∧ (fallbackExtract s = [] → s = []) := by
  refine ⟨rfl, ?_, ?_, ?_⟩
  · have hr : extract_merchant (some (String.mk s)) =
        String.mk ((rulesCascade s).getD (fallbackExtract s)) := rfl
    rw [hr, h]
    rfl
  · unfold fallbackExtract
    cases hfg : firstGoodPart (splitDelim s) with
    | none => simp [List.length_take]
    | some p => simp [List.length_take]
  · intro hemp
    unfold fallbackExtract at hemp
    cases hfg : firstGoodPart (splitDelim s) with
    | some p =>
      simp only [hfg] at hemp
      obtain ⟨p0, _, hf⟩ := List.exists_of_findSome?_eq_some hfg
      simp only [] at hf
      split at hf
      · rename_i hcond
        cases hf
        have h2 := hcond.2.2.2
        have hlen : ((pyStrip p0).take 60).length = 0 := by rw [hemp]; rfl
        rw [List.length_take] at hlen
        exfalso
        omega
      · cases hf
    | none =>
      simp only [hfg] at hemp
      have hlen : (s.take 60).length = 0 := by rw [hemp]; rfl
      rw [List.length_take] at hlen
      exact List.length_eq_zero.mp (by omega)

/-- C2 witness: instantiation of the amended statement at a narration on
which no cascade rule fires. -/
theorem C2_witness :
    extract_merchant none = ""
    ∧ extract_merchant (some (String.mk "random text with no pattern".toList)) =
        String.mk (fallbackExtract "random text with no pattern".toList)
    ∧ (fallbackExtract "random text with no pattern".toList).length ≤ 60
    ∧ (fallbackExtract "random text with no pattern".toList = [] →
        "random text with no pattern".toList = []) :=
  C2_amended "random text with no pattern".toList (by rfl)

/-- C5 counterexample: rule 1 returns the purely numeric candidate "12345"
(its filter only rejects "UPI" and length at most 2), and rule 5 returns the
literal "UPI" (it applies no filter at all), which `extract_merchant`
propagates. -/
theorem C5_counterexample :
    rule1acc "UPI-12345-x".toList = some "12345".toList
    ∧ pureNumber "12345".toList = true
    ∧ rule5acc "to:UPI".toList = some "UPI".toList
    ∧ extract_merchant (some "to:UPI") = "UPI" := by
  refine ⟨?_, ?_, ?_, ?_⟩ <;> rfl

/-- C5 amended: rules 1 and 2 return only candidates that differ from the
literal "UPI" (after upper-casing) and are longer than 2 characters; rule 3
returns only candidates longer than 2 characters; rules 4-6 return their
stripped captures with no further filter.  No purely-numeric rejection
applies to any of rules 1-6 (only to the fallback split), and "UPI" can be
returned by rules 3, 5 and 6. -/
theorem C5_amended (s1 s2 s3 m1 m2 m3 : List Char)
    (h1 : rule1acc s1 = some m1) (h2 : rule2acc s2 = some m2)
    (h3 : rule3acc s3 = some m3) :
    (pyUpper m1 ≠ "UPI".toList ∧ 2 < m1.length)
    ∧ (pyUpper m2 ≠ "UPI".toList ∧ 2 < m2.length)
    ∧ 2 < m3.length := by
  unfold rule1acc at h1
  unfold rule2acc at h2
  unfold rule3acc at h3
  refine ⟨filter12_some _ _ h1, filter12_some _ _ h2, ?_⟩
  obtain ⟨g, _, hf⟩ := Option.bind_eq_some.mp h3
  simp only [] at hf
  split at hf
  · cases hf
    assumption
  · cases hf

/-- C5 witness: instantiation of the amended statement at narrations on
which rules 1, 2 and 3 fire. -/
theorem C5_witness :
    (pyUpper "ABC".toList ≠ "UPI".toList ∧ 2 < "ABC".toList.length)
    ∧ (pyUpper "SHOP".toList ≠ "UPI".toList ∧ 2 < "SHOP".toList.length)
    ∧ 2 < "John Doe".toList.length :=
  C5_amended "UPI-ABC-x".toList "REV-UPI-X1-SHOP@bank".toList
    "FT-A1-B2-John Doe - Pay".toList "ABC".toList "SHOP".toList
    "John Doe".toList (by rfl) (by rfl) (by rfl)

/-- C7: every pair produced by the amount/type reconciler carries a
nonnegative amount; sign lives only in the type component. -/
theorem C7_amount_nonneg (t : Table) (p : Rat × Ty)
    (hp : p ∈ amountTypeCells t) : 0 ≤ p.1 :=
  amountTypeCells_nonneg t p hp

/-- A one-row table whose single-amount cell is negative. -/
def tNegAmt : Table := ⟨[⟨"Amount", true, [some "-42"]⟩], 1⟩

/-- C7 witness: the nonnegativity theorem instantiated at a concrete row
whose raw amount cell is negative. -/
theorem C7_witness : 0 ≤ (((42 : Rat), Ty.debit)).1 :=
  C7_amount_nonneg tNegAmt ((42 : Rat), Ty.debit)
    (by rw [show amountTypeCells tNegAmt = [((42 : Rat), Ty.debit)] from rfl]
        exact List.mem_singleton_self _)

/-- C9: when no column name matches the amount patterns, the reconciler
takes the default path even if debit and credit columns both resolved:
every row gets amount 0 and type Debit, and no cell value is read (the
result depends only on the row count). -/
theorem C9_no_amount_col (t : Table) (dc cc : Col)
    (ha : amountCol t = none) (hd : debitCol t = some dc)
    (hc : creditCol t = some cc) :
    amountTypeCells t = List.replicate t.nrows ((0 : Rat), Ty.debit) := by
  unfold amountTypeCells
  rw [ha]

/-- A one-row table with debit and credit columns but no amount-like
column name. -/
def tNoAmt : Table :=
  ⟨[⟨"Debit", false, [some "500"]⟩, ⟨"Credit", false, [some "700"]⟩], 1⟩

/-- C9 witness: the default-path theorem instantiated at a table whose
debit and credit cells are nonzero, observing they are ignored. -/
theorem C9_witness :
    amountTypeCells tNoAmt = List.replicate tNoAmt.nrows ((0 : Rat), Ty.debit) :=
  C9_no_amount_col tNoAmt ⟨"Debit", false, [some "500"]⟩
    ⟨"Credit", false, [some "700"]⟩ (by rfl) (by rfl) (by rfl)

/-- A table with no narration-like column whose first object-dtype input
column is literally named "Date" and holds date strings. -/
def tDateObj : Table :=
  ⟨[⟨"Date", true, [some "05 Jan 2024"]⟩,
    ⟨"Info", true, [some "UPI-AMAZON-x"]⟩], 1⟩

/-- C10 counterexample: on `tDateObj` the first string-typed column of the
input is the "Date" column, and the claim would extract the merchant from
its cell ("05 Jan 2024", which `extract_merchant` maps to itself).  But the
date step has already overwritten the column literally named "Date" with
parsed datetimes before the text-column scan runs, so the code extracts
from the next object column "Info" and produces "AMAZON" instead. -/
theorem C10_counterexample :
    merchantCells tDateObj = ["AMAZON"]
    ∧ tDateObj.cols.find? (fun col => col.isObj) =
        some (Col.mk "Date" true [some "05 Jan 2024"])
    ∧ extract_merchant (some "05 Jan 2024") = "05 Jan 2024"
    ∧ ("AMAZON" : String) ≠ "05 Jan 2024" := by
  refine ⟨rfl, rfl, rfl, by decide⟩

/-- C10 amended: when no column matches the narration patterns, the
merchant is extracted from the first object-dtype column of the table as it
stands after the date step — that is, the first string-typed input column
not literally named "Date", since an input "Date" column has been
overwritten with parsed dates by then — and is the empty string for every
row when no such column exists. -/
theorem C10_amended (t : Table) (c : Col) (h : narrationCol t = none) :
    ((textScanCols t).find? (fun col => col.isObj) = some c →
      merchantCells t = c.cells.map (fun o => extract_merchant o)
      ∧ c ∈ t.cols ∧ c.name ≠ "Date")
    ∧ ((textScanCols t).find? (fun col => col.isObj) = none →
      merchantCells t = List.replicate t.nrows "") := by
  constructor
  · intro h2
    refine ⟨by unfold merchantCells; rw [h, h2], ?_⟩
    have hobj : c.isObj = true := List.find?_some h2
    have hmem : c ∈ textScanCols t := List.mem_of_find?_eq_some h2
    unfold textScanCols at hmem
    rcases List.mem_append.mp hmem with hl | hr
    · obtain ⟨c0, hc0, hf⟩ := List.mem_map.mp hl
      by_cases hn : c0.name = "Date"
      · rw [if_pos hn] at hf
        rw [← hf] at hobj
        simp at hobj
      · rw [if_neg hn] at hf
        rw [← hf]
        exact ⟨hc0, hn⟩
    · exfalso
      split at hr
      · simp at hr
      · simp only [List.mem_singleton] at hr
        rw [hr] at hobj
        simp at hobj
  · intro h2
    unfold merchantCells
    rw [h, h2]

/-- A table with no narration-like column whose first object-dtype column
after the date step is the second input column. -/
def tObjFallback : Table :=
  ⟨[⟨"Val", false, [some "1"]⟩, ⟨"Info", true, [some "UPI-AMAZON-x"]⟩], 1⟩

/-- C10 witness: the amended theorem instantiated at a table whose first
object-dtype column after the date step is "Info". -/
theorem C10_witness :
    ((textScanCols tObjFallback).find? (fun col => col.isObj) =
        some (Col.mk "Info" true [some "UPI-AMAZON-x"]) →
      merchantCells tObjFallback =
        (Col.mk "Info" true [some "UPI-AMAZON-x"]).cells.map
          (fun o => extract_merchant o)
      ∧ (Col.mk "Info" true [some "UPI-AMAZON-x"]) ∈ tObjFallback.cols
      ∧ (Col.mk "Info" true [some "UPI-AMAZON-x"]).name ≠ "Date")
    ∧ ((textScanCols tObjFallback).find? (fun col => col.isObj) = none →
      merchantCells tObjFallback = List.replicate tObjFallback.nrows "") :=
  C10_amended tObjFallback ⟨"Info", true, [some "UPI-AMAZON-x"]⟩ (by rfl)

/-- A one-row table taking the debit/credit path, producing a Debit row. -/
def tIdem : Table :=
  ⟨[⟨"Amount", true, [some "500"]⟩, ⟨"Debit", false, [some "500"]⟩,
    ⟨"Credit", false, [some "0"]⟩], 1⟩

/-- C3 counterexample: the reconciler produces `(500, Debit)` for a row with
debit cell "500" and credit cell "0"; feeding the produced amount back
through the single-amount-column path (its cell text is `str(500.0)` =
"500.0", which contains no `-`) yields `(500, Credit)`: the type component
is not preserved, so the reconciliation is not idempotent as claimed. -/
theorem C3_counterexample :
    amountTypeCells tIdem = [((500 : Rat), Ty.debit)]
    ∧ singleAmount (some "500.0") = ((500 : Rat), Ty.credit)
    ∧ ((500 : Rat), Ty.credit) ≠ ((500 : Rat), Ty.debit) := by
  refine ⟨rfl, ?_, by decide⟩
  have h1 : singleAmount (some "500.0") =
      (ratAbs (((500 : Nat) : Rat) + ((0 : Nat) : Rat) / (10 : Rat) ^ (1 : Nat)),
        Ty.credit) := rfl
  rw [h1]
  norm_num [ratAbs]

/-- C3 amended: re-running the single-amount path on a rendering of any
reconciler output amount preserves the amount but always produces type
Credit, because the output amount is nonnegative and its rendering carries
no `-` sign; the `(amount, type)` pair is therefore a fixed point exactly
for rows whose type is Credit, while Debit rows flip to Credit. -/
theorem C3_amended (t : Table) (p : Rat × Ty) (hp : p ∈ amountTypeCells t)
    (s : String) (hv : toNumeric0 (cleanAmount s.toList) = p.1)
    (hnd : s.toList.contains '-' = false) :
    singleAmount (some s) = (p.1, Ty.credit) := by
  have h0 : 0 ≤ p.1 := amountTypeCells_nonneg t p hp
  have hr : singleAmount (some s) =
      (ratAbs (toNumeric0 (cleanAmount s.toList)),
        if s.toList.contains '-' then Ty.debit else Ty.credit) := rfl
  rw [hr, hv, hnd, ratAbs_of_nonneg p.1 h0]
  simp

/-- C3 witness: the amended statement instantiated at the Debit row of
`tIdem` and the rendering "500.0" of its output amount. -/
theorem C3_witness :
    singleAmount (some "500.0") = ((((500 : Rat), Ty.debit)).1, Ty.credit) :=
  C3_amended tIdem ((500 : Rat), Ty.debit)
    (by rw [show amountTypeCells tIdem = [((500 : Rat), Ty.debit)] from rfl]
        exact List.mem_singleton_self _)
    "500.0"
    (by have h1 : toNumeric0 (cleanAmount "500.0".toList) =
          ((500 : Nat) : Rat) + ((0 : Nat) : Rat) / (10 : Rat) ^ (1 : Nat) := rfl
        rw [h1]
        norm_num)
    (by rfl)

/-- A one-row table with amount, debit and credit columns whose credit cell
is negative. -/
def tDc : Table :=
  ⟨[⟨"Amount", true, [some "7"]⟩, ⟨"Debit", false, [some "100"]⟩,
    ⟨"Credit", false, [some "-5"]⟩], 1⟩

/-- C4 counterexample: with debit cell "100" and credit cell "-5" the code
produces amount 5 (the credit is selected because it is nonzero, then made
absolute) with type Debit, while the claimed rule (credit used only when
greater than 0, else the debit) gives amount 100. -/
theorem C4_counterexample :
    amountTypeCells tDc = [((5 : Rat), Ty.debit)]
    ∧ specDcAmount (some "100") (some "-5") = ((100 : Rat), Ty.debit)
    ∧ ((5 : Rat), Ty.debit) ≠ ((100 : Rat), Ty.debit) := by
  refine ⟨rfl, rfl, by decide⟩

/-- C4 amended: when the amount, debit and credit columns all resolve, the
reconciler maps the debit/credit cell lists pointwise, and on each row the
amount is the absolute parsed credit when the parsed credit is nonzero
(not: positive) and the absolute parsed debit otherwise, while the type is
Credit exactly when the parsed credit is positive. -/
theorem C4_amended (t : Table) (ac dc cc : Col) (x y : Option String)
    (ha : amountCol t = some ac) (hd : debitCol t = some dc)
    (hc : creditCol t = some cc) :
    amountTypeCells t = List.zipWith dcAmount dc.cells cc.cells
    ∧ dcAmount x y =
        (if toNumeric0 (removeAll ",".toList (cellToStr y).toList) = 0
         then ratAbs (toNumeric0 (removeAll ",".toList (cellToStr x).toList))
         else ratAbs (toNumeric0 (removeAll ",".toList (cellToStr y).toList)),
         if 0 < toNumeric0 (removeAll ",".toList (cellToStr y).toList)
         then Ty.credit else Ty.debit) := by
  constructor
  · unfold amountTypeCells
    rw [ha, hd, hc]
  · unfold dcAmount
    simp only [ne_eq, apply_ite ratAbs, ite_not]

/-- A one-row table on the debit/credit path with ordinary positive cells. -/
def tDcW : Table :=
  ⟨[⟨"Amt", true, [some "10"]⟩, ⟨"Withdrawal", false, [some "10"]⟩,
    ⟨"Deposit", false, [some "3"]⟩], 1⟩

/-- C4 witness: the amended statement instantiated at a concrete table and
a concrete debit/credit cell pair. -/
theorem C4_witness :
    amountTypeCells tDcW =
      List.zipWith dcAmount (Col.mk "Withdrawal" false [some "10"]).cells
        (Col.mk "Deposit" false [some "3"]).cells
    ∧ dcAmount (some "10") (some "3") =
        (if toNumeric0 (removeAll ",".toList (cellToStr (some "3")).toList) = 0
         then ratAbs (toNumeric0 (removeAll ",".toList (cellToStr (some "10")).toList))
         else ratAbs (toNumeric0 (removeAll ",".toList (cellToStr (some "3")).toList)),
         if 0 < toNumeric0 (removeAll ",".toList (cellToStr (some "3")).toList)
         then Ty.credit else Ty.debit) :=
  C4_amended tDcW ⟨"Amt", true, [some "10"]⟩ ⟨"Withdrawal", false, [some "10"]⟩
    ⟨"Deposit", false, [some "3"]⟩ (some "10") (some "3")
    (by rfl) (by rfl) (by rfl)

/-- A one-row table that already carries a `Category` column. -/
def tCat : Table := ⟨[⟨"Category", true, [some "Food"]⟩], 1⟩

/-- C6 counterexample: when the uploaded batch already has a column named
`Category`, its values are carried through unchanged, so the category field
is "Food", not the empty string, at ingestion time. -/
theorem C6_counterexample :
    (normalize dummyParse tCat).map Tx.category = [some "Food"]
    ∧ (some "Food" : Option String) ≠ some "" := by
  refine ⟨rfl, by decide⟩

/-- C6 amended: the normalized output has exactly the record fields `date`,
`merchant`, `amount`, `type`, `category`, with one output row per input
row; every row's category is the empty string at ingestion time provided
the input has no column named `Category` (an existing `Category` column is
instead carried through unchanged). -/
theorem C6_amended (dparse : String → Except Unit Int) (t : Table) (tx : Tx)
    (hwf : t.wf)
    (hnc : t.cols.find? (fun c => c.name = "Category") = none)
    (hmem : tx ∈ normalize dparse t) :
    (normalize dparse t).length = t.nrows ∧ tx.category = some "" := by
  refine ⟨length_normalize dparse t hwf, ?_⟩
  have hcat : categoryCells t = List.replicate t.nrows (some "") := by
    unfold categoryCells
    rw [hnc]
  unfold normalize at hmem
  obtain ⟨a, b, _, hb, rfl⟩ := exists_of_mem_zipWith _ _ _ hmem
  obtain ⟨b1, b2⟩ := b
  have hb2 : b2 ∈ categoryCells t := (List.of_mem_zip hb).2
  rw [hcat] at hb2
  exact List.eq_of_mem_replicate hb2

/-- A one-row table with a narration column and no `Category` column. -/
def tNoCat : Table := ⟨[⟨"Narration", true, [some "UPI-AMAZON-x"]⟩], 1⟩

/-- The normalized transaction the engine derives from `tNoCat`. -/
def txAmazon : Tx := ⟨none, "AMAZON", 0, Ty.debit, some ""⟩

/-- C6 witness: the amended statement instantiated at a concrete batch
without a `Category` column. -/
theorem C6_witness :
    (normalize dummyParse tNoCat).length = tNoCat.nrows
    ∧ txAmazon.category = some "" :=
  C6_amended dummyParse tNoCat txAmazon (by unfold Table.wf; decide) (by rfl)
    (by rw [show normalize dummyParse tNoCat = [txAmazon] from rfl]
        exact List.mem_singleton_self _)

/-- C8: the date normalizer is total and exception-free for every behavior
of the external permissive parser: it returns `none` (the `NaT` sentinel)
on missing input, on input whose stripped text is empty, and on input the
external parser rejects, and in every case it returns either `NaT` or a
parsed date. -/
theorem C8_date_total (dparse : String → Except Unit Int) (x : PCell)
    (s1 s2 : String) (e : Unit)
    (h1 : String.mk (pyStrip s1.toList) = "")
    (h2 : dparse (String.mk (pyStrip s2.toList)) = Except.error e) :
    (try_parse_date dparse x = none ∨ ∃ d, try_parse_date dparse x = some d)
    ∧ try_parse_date dparse PCell.null = none
    ∧ try_parse_date dparse (PCell.str s1) = none
    ∧ try_parse_date dparse (PCell.str s2) = none := by
  refine ⟨?_, rfl, ?_, ?_⟩
  · cases hv : try_parse_date dparse x with
    | none => exact Or.inl rfl
    | some d => exact Or.inr ⟨d, rfl⟩
  · have hr : try_parse_date dparse (PCell.str s1) =
        (if String.mk (pyStrip s1.toList) = "" then none
         else
           match dparse (String.mk (pyStrip s1.toList)) with
           | .ok d => some d
           | .error _ => none) := rfl
    rw [hr, if_pos h1]
  · have hr : try_parse_date dparse (PCell.str s2) =
        (if String.mk (pyStrip s2.toList) = "" then none
         else
           match dparse (String.mk (pyStrip s2.toList)) with
           | .ok d => some d
           | .error _ => none) := rfl
    rw [hr]
    by_cases hz : String.mk (pyStrip s2.toList) = ""
    · rw [if_pos hz]
    · rw [if_neg hz, h2]

/-- C8 witness: the totality statement instantiated with the always-failing
external parser, a pre-parsed date cell, an all-whitespace string and an
arbitrary unparsable string. -/
theorem C8_witness :
    (try_parse_date dummyParse (PCell.dt 20240105) = none
      ∨ ∃ d, try_parse_date dummyParse (PCell.dt 20240105) = some d)
    ∧ try_parse_date dummyParse PCell.null = none
    ∧ try_parse_date dummyParse (PCell.str "   ") = none
    ∧ try_parse_date dummyParse (PCell.str "not a date") = none :=
  C8_date_total dummyParse (PCell.dt 20240105) "   " "not a date" ()
    (by rfl) (by rfl)

end Dashboard
